import Mathlib

/-!
# Verification of the legacy virtual-environment builder

A shallow embedding of `src/virtualenv/builders/legacy.py` together with
proofs about the claims of its specification.

Conventions:
* Python strings are Lean `String`s; the Python string primitives used by the
  source (`str.startswith`, slicing, `str.replace`, `in`, `os.path.join`) are
  modelled as executable Lean functions over `String.data` (lists of
  characters, matching Python's code-point semantics).
* The filesystem is modelled explicitly (`FS`) and the builder's construction
  routine is embedded as a straight-line sequence of filesystem operations,
  in the order the source performs them.
-/

namespace Virtualenv

/-- Models Python `str.startswith(t)`: `t` is a prefix of `s`. -/
def pyStartsWith (s t : String) : Bool :=
  t.data.isPrefixOf s.data

/-- Models the Python slice `s[n:]` (by code points, like Python). -/
def pySlice (s : String) (n : Nat) : String :=
  ⟨s.data.drop n⟩

/-- The left-to-right scan of Python `str.replace`, tail-recursively with an
output accumulator kept in reverse order.  The first `Nat` argument is the
number of input characters still to be skipped because they belong to the
occurrence of `old` that was just replaced; at skip count `0`, either `old`
matches at the current position and `new` is emitted while the match is
consumed, or one character is copied through. -/
def pyReplaceAux (old new : List Char) : Nat → List Char → List Char → List Char
  | _, acc, [] => acc.reverse
  | skip + 1, acc, _ :: rest => pyReplaceAux old new skip acc rest
  | 0, acc, c :: rest =>
    match old.isPrefixOf (c :: rest) with
    | true => pyReplaceAux old new (old.length - 1) (new.reverse ++ acc) rest
    | false => pyReplaceAux old new 0 (c :: acc) rest

/-- Models Python `s.replace(old, new)` for a non-empty `old`: replaces every
non-overlapping occurrence of `old` in `s` by `new`, scanning left to right
(replacement text is never rescanned).  For `old = ""` (never used by the
source) the string is returned unchanged. -/
def pyReplace (s old new : String) : String :=
  if old.data.isEmpty then s
  else ⟨pyReplaceAux old.data new.data 0 [] s.data⟩

/-- Models Python `needle in hay` for strings: `needle` occurs contiguously
somewhere in `hay`. -/
def strOccursAux (needle : List Char) : List Char → Bool
  | [] => needle.isEmpty
  | c :: rest => needle.isPrefixOf (c :: rest) || strOccursAux needle rest

/-- Models Python substring membership `needle in hay`. -/
def strOccurs (needle hay : String) : Bool :=
  strOccursAux needle.data hay.data

/-- Models Python `s.endswith(t)`. -/
def pyEndsWith (s t : String) : Bool :=
  t.data.isSuffixOf s.data

/-- Models `posixpath.join(a, b)` (the `os.path.join` used by the source and
by the rendered startup script): an absolute second component wins, otherwise
the components are glued with a single `/` separator. -/
def os_path_join (a b : String) : String :=
  if pyStartsWith b "/" then b
  else if a = "" || pyEndsWith a "/" then a ++ b
  else a ++ "/" ++ b

/-! ## The `SITE` startup-script template (lines 10-81 of the source) -/

/-- The `SITE` template string of `legacy.py`, verbatim (the apostrophe
character is written `\x27` and double quotes are escaped). -/
def SITE : String :=
  "\n" ++
  "import sys\n" ++
  "import os.path\n" ++
  "\n" ++
  "# We want to make sure that our sys.prefix and sys.exec_prefix match the\n" ++
  "# locations in our virtual enviornment.\n" ++
  "sys.prefix = \"__PREFIX__\"\n" ++
  "sys.exec_prefix = \"__EXEC_PREFIX__\"\n" ++
  "\n" ++
  "# We want to record what the \"real/base\" prefix is of the virtual environment.\n" ++
  "sys.base_prefix = \"__BASE_PREFIX__\"\n" ++
  "sys.base_exec_prefix = \"__BASE_EXEC_PREFIX__\"\n" ++
  "\n" ++
  "# At the point this code is running, the only paths on the sys.path are the\n" ++
  "# paths that the interpreter adds itself. These are essentially the locations\n" ++
  "# it looks for the various stdlib modules. Since we are inside of a virtual\n" ++
  "# environment these will all be relative to the sys.prefix and sys.exec_prefix,\n" ++
  "# however we want to change these to be relative to sys.base_prefix and\n" ++
  "# sys.base_exec_prefix instead.\n" ++
  "new_sys_path = []\n" ++
  "for path in sys.path:\n" ++
  "    # TODO: Is there a better way to determine this?\n" ++
  "    if path.startswith(sys.prefix):\n" ++
  "        path = os.path.join(\n" ++
  "            sys.base_prefix,\n" ++
  "            path[len(sys.prefix) + 1:],\n" ++
  "        )\n" ++
  "    elif path.startswith(sys.exec_prefix):\n" ++
  "        path = os.path.join(\n" ++
  "            sys.base_exec_prefix,\n" ++
  "            path[len(sys.exec_prefix) + 1:],\n" ++
  "        )\n" ++
  "\n" ++
  "    new_sys_path.append(path)\n" ++
  "sys.path = new_sys_path\n" ++
  "\n" ++
  "# We want to empty everything that has already been imported from the\n" ++
  "# sys.modules so that any additional imports of these modules will import them\n" ++
  "# from the base Python and not from the copies inside of the virtual\n" ++
  "# environment. This will ensure that our copies will only be used for\n" ++
  "# bootstrapping the virtual environment.\n" ++
  "for key in list(sys.modules):\n" ++
  "    # We don\x27t want to purge these modules because if we do, then things break\n" ++
  "    # very badly.\n" ++
  "    if key in [\"sys\", \"site\", \"sitecustomize\", \"__builtin__\", \"__main__\"]:\n" ++
  "        continue\n" ++
  "\n" ++
  "    del sys.modules[key]\n" ++
  "\n" ++
  "# We want to trick the interpreter into thinking that the user specific\n" ++
  "# site-packages has been requested to be disabled. We\x27ll do this by mimicing\n" ++
  "# that sys.flags.no_user_site has been set to False, however sys.flags is a\n" ++
  "# read-only structure so we\x27ll temporarily replace it with one that has the\n" ++
  "# same values except for sys.flags.no_user_site which will be set to True.\n" ++
  "_real_sys_flags = sys.flags\n" ++
  "class AttrDict(dict):\n" ++
  "    def __init__(self, *args, **kwargs):\n" ++
  "        dict.__init__(self, *args, **kwargs)\n" ++
  "    def __getattr__(self, name):\n" ++
  "        return self[name]\n" ++
  "sys.flags = AttrDict((k, getattr(sys.flags, k)) for k in dir(sys.flags))\n" ++
  "sys.flags[\"no_user_site\"] = True\n" ++
  "\n" ++
  "# Next we want to import the *real* site module from the base Python. Actually\n" ++
  "# attempting to do an import here will just import this module again, so we\x27ll\n" ++
  "# just read the real site module and exec it.\n" ++
  "with open(\"__SITE__\") as fp:\n" ++
  "    exec(fp.read())\n" ++
  "\n" ++
  "# Finally we\x27ll restore the real sys.flags\n"
  ++ "sys.flags = _real_sys_flags\n"

/-- The placeholder substitution performed on the `SITE` template
(lines 194-201 of the source), in source order; the caller passes the
destination path for both the `__PREFIX__` and `__EXEC_PREFIX__` slots. -/
def render_site (pre epre bpre bepre sitePath : String) : String :=
  pyReplace
    (pyReplace
      (pyReplace
        (pyReplace
          (pyReplace SITE "__PREFIX__" pre)
          "__EXEC_PREFIX__" epre)
        "__BASE_PREFIX__" bpre)
      "__BASE_EXEC_PREFIX__" bepre)
    "__SITE__" sitePath

/-! ## The rendered script's `sys.path` rewrite (SITE lines 29-44) -/

/-- The body of the rendered script's `for path in sys.path` loop: one
`sys.path` entry after the rewrite. -/
def rewrite_path_entry (pre epre bpre bepre path : String) : String :=
  if pyStartsWith path pre then
    os_path_join bpre (pySlice path (pre.length + 1))
  else if pyStartsWith path epre then
    os_path_join bepre (pySlice path (epre.length + 1))
  else path

/-- The rendered script's `new_sys_path` accumulation loop: starts from the
empty list and appends the rewritten entry for each element of `sys.path`
in order. -/
def new_sys_path (pre epre bpre bepre : String) (sysPath : List String) : List String :=
  sysPath.foldl (fun acc path => acc ++ [rewrite_path_entry pre epre bpre bepre path]) []

/-! ## The rendered script's `sys.modules` purge (SITE lines 51-57) -/

/-- The hard-coded list of module names the rendered script never purges
(SITE line 54). -/
def never_purged : List String :=
  ["sys", "site", "sitecustomize", "__builtin__", "__main__"]

/-- Models Python `del sys.modules[key]` on a registry snapshot. -/
def del_key {α : Type} (modules : List (String × α)) (key : String) : List (String × α) :=
  modules.filter (fun kv => decide (kv.1 ≠ key))

/-- The purge loop: iterates over a snapshot of the registry's keys
(`for key in list(sys.modules)`), skipping allow-listed keys and deleting
every other entry. -/
def purge_loop {α : Type} (keys : List String) (modules : List (String × α)) :
    List (String × α) :=
  match keys with
  | [] => modules
  | key :: rest =>
    if key ∈ never_purged then purge_loop rest modules
    else purge_loop rest (del_key modules key)

/-- The rendered script's module-cache purge: the registry is an association
list from module name to loaded-module handle. -/
def purge_sys_modules {α : Type} (modules : List (String × α)) : List (String × α) :=
  purge_loop (modules.map Prod.fst) modules

/-! ## The rendered script's `sys.flags` spoofing section (SITE lines 64-80) -/

/-- A statement of the straight-line tail of the rendered script, as far as
the `sys.flags` state is concerned.  `setFlags v` is an assignment
`sys.flags = v`; `execStmt outcome` is the `exec(fp.read())` of the base
startup module's source, which either succeeds (`none`) or raises an
exception (`some e`). -/
inductive FlagsStmt (φ ε : Type) where
  | setFlags (v : φ)
  | execStmt (outcome : Option ε)

/-- Python straight-line execution of `FlagsStmt` statements: an uncaught
exception aborts the remaining statements, propagating together with the
`sys.flags` value in effect at that moment (there is no `try`/`finally` in
the script). -/
def runFlagsStmts {φ ε : Type} : List (FlagsStmt φ ε) → φ → Except (ε × φ) φ
  | [], f => Except.ok f
  | FlagsStmt.setFlags v :: rest, _ => runFlagsStmts rest v
  | FlagsStmt.execStmt none :: rest, f => runFlagsStmts rest f
  | FlagsStmt.execStmt (some e) :: _, f => Except.error (e, f)

/-- The flags-spoofing section of the rendered script
(`_real_sys_flags = sys.flags` down to `sys.flags = _real_sys_flags`):
starting from the current flags `f0`, install the spoofed stand-in
`spoof f0` (the `AttrDict` copy with `no_user_site = True`), run the
wrapped `exec`, then assign the saved original back.  Returns the final
flags value, or the exception paired with the flags value left installed. -/
def run_flags_section {φ ε : Type} (f0 : φ) (spoof : φ → φ) (outcome : Option ε) :
    Except (ε × φ) φ :=
  runFlagsStmts
    [FlagsStmt.setFlags (spoof f0), FlagsStmt.execStmt outcome, FlagsStmt.setFlags f0]
    f0

/-! ## The base-interpreter probe (`_get_base_python_info`, lines 91-123) -/

/-- The structured record the probe extracts from the base interpreter
(the JSON object printed by the inline program, lines 108-120).  Field names
follow the JSON keys: `sys_version_info` is `"sys.version_info"` (its first
three components, `(major, minor, micro)`), `executable` is
`"sys.executable"`, `prefix_path` is `"sys.prefix"`, `exec_prefix_path` is
`"sys.exec_prefix"`, `lib` is `"lib"` and `site_py` is `"site.py"`. -/
structure BaseInterpreterInfo where
  sys_version_info : List Nat
  executable : String
  prefix_path : String
  exec_prefix_path : String
  lib : String
  site_py : String
deriving DecidableEq, Repr

/-- Modelled from the spec: the observable behaviour of the probe's
subprocess invocation (`subprocess.check_output`), which is a library
primitive not under `src/`.  The base interpreter either cannot be launched,
or runs to completion with an exit code and captured standard output. -/
inductive ProbeOutcome where
  | launchFailure
  | launched (exitCode : Nat) (output : String)

/-- Modelled from the spec: the probe's failure taxonomy (`ProbeFailure`):
subprocess could not be launched, exited non-zero, or produced unparseable
output. -/
inductive ProbeFailure where
  | launchFailed
  | nonZeroExit (code : Nat)
  | unparseableOutput
deriving DecidableEq, Repr

/-- The probe `_get_base_python_info`:
`json.loads(subprocess.check_output([...]))`.  The subprocess behaviour is
passed in as `outcome` and JSON deserialization (`json.loads`, a library
primitive not under `src/`) as `parseJson`; the composition mirrors the
source: a launch failure or a non-zero exit aborts before parsing
(`check_output` raises), otherwise the captured output is parsed and an
unparseable output is a failure. -/
def get_base_python_info
    (outcome : ProbeOutcome)
    (parseJson : String → Option BaseInterpreterInfo) :
    Except ProbeFailure BaseInterpreterInfo :=
  match outcome with
  | ProbeOutcome.launchFailure => Except.error ProbeFailure.launchFailed
  | ProbeOutcome.launched code out =>
    if code = 0 then
      match parseJson out with
      | some info => Except.ok info
      | none => Except.error ProbeFailure.unparseableOutput
    else Except.error (ProbeFailure.nonZeroExit code)

/-- `check_available` (lines 86-89): the legacy builder is always available. -/
def check_available (python : String) : Bool :=
  true

/-! ## The filesystem model -/

/-- A regular file: its byte content and whether its executable permission
bit is set. -/
structure File where
  content : String
  executable : Bool
deriving DecidableEq, Repr

/-- Look up the first entry with the given key in an association list of
files. -/
def findFile : List (String × File) → String → Option File
  | [], _ => none
  | (q, f) :: rest, p => if q = p then some f else findFile rest p

/-- Overwrite the first entry with the given key, or append a new entry. -/
def setAssoc : List (String × File) → String → File → List (String × File)
  | [], p, f => [(p, f)]
  | (q, g) :: rest, p, f =>
    if q = p then (p, f) :: rest else (q, g) :: setAssoc rest p f

/-- The filesystem: the set of existing directories and the regular files
(association list from absolute path to file). -/
structure FS where
  dirs : List String
  files : List (String × File)
deriving DecidableEq, Repr

/-- The file at a path, if any. -/
def FS.lookupFile (fs : FS) (p : String) : Option File :=
  findFile fs.files p

/-- Create or overwrite the file at a path. -/
def FS.setFile (fs : FS) (p : String) (f : File) : FS :=
  ⟨fs.dirs, setAssoc fs.files p f⟩

/-- Modelled from the spec: `ensure_directory` from `virtualenv._utils`
(not under `src/`) — idempotent directory creation, creating an
already-existing directory is not an error. -/
def FS.ensure_directory (fs : FS) (d : String) : FS :=
  if d ∈ fs.dirs then fs else ⟨fs.dirs ++ [d], fs.files⟩

/-- Modelled from the spec: `copyfile` from `virtualenv._utils` (not under
`src/`) — copies the source file to the destination, overwriting it and
preserving the executable permission bit of the source; fails when the
source file is absent. -/
def FS.copyfile (fs : FS) (src dst : String) : Option FS :=
  (fs.lookupFile src).map (fun f => fs.setFile dst f)

/-- The error taxonomy of the construction (spec section 7): a missing
bootstrap module of the base library (`MissingDependencyModule`, surfaced
with the missing file name), or a failure of a filesystem primitive
(`FilesystemError`, surfaced with the offending path). -/
inductive VEnvError where
  | missingDependencyModule (name : String)
  | filesystemError (path : String)
deriving DecidableEq, Repr

/-- One filesystem operation performed by `create_virtual_environment`:
an `ensure_directory` call, a `copyfile` call (tagged with the error raised
when the source is absent), or the final text write of the rendered
`site.py`. -/
inductive Op where
  | ensureDir (d : String)
  | copy (src dst : String) (err : VEnvError)
  | write (dst : String) (content : String)
deriving DecidableEq, Repr

/-- Execute one operation on the filesystem. -/
def runOp (fs : FS) : Op → Option VEnvError × FS
  | Op.ensureDir d => (none, fs.ensure_directory d)
  | Op.copy src dst err =>
    match fs.copyfile src dst with
    | some fs' => (none, fs')
    | none => (some err, fs)
  | Op.write dst content => (none, fs.setFile dst ⟨content, false⟩)

/-- Execute a sequence of operations in order, stopping at the first error
and returning the filesystem state reached at that point (no rollback). -/
def runOps (fs : FS) : List Op → Option VEnvError × FS
  | [] => (none, fs)
  | op :: rest =>
    match runOp fs op with
    | (some e, fs') => (some e, fs')
    | (none, fs') => runOps fs' rest

/-- The path a single operation writes, if any. -/
def Op.writeTarget : Op → Option String
  | Op.ensureDir _ => none
  | Op.copy _ dst _ => some dst
  | Op.write dst _ => some dst

/-- The path a single operation reads, if any. -/
def Op.readSource : Op → Option String
  | Op.copy src _ _ => some src
  | _ => none

/-- All paths written by a sequence of operations. -/
def writesOf (ops : List Op) : List String :=
  ops.filterMap Op.writeTarget

/-- All paths read by a sequence of operations. -/
def readsOf (ops : List Op) : List String :=
  ops.filterMap Op.readSource

/-! ## The builder (`create_virtual_environment`, lines 125-204) -/

/-- The binary alias name for iteration `i` of the `for i in range(3)` loop
(lines 132-141): `"python{}".format(".".join(map(str, version[:i])))`. -/
def python_bin_name (version : List Nat) (i : Nat) : String :=
  "python" ++ String.intercalate "." ((version.take i).map Nat.repr)

/-- `bin_dir = os.path.join(destination, "bin")` (line 130). -/
def bin_dir (destination : String) : String :=
  os_path_join destination "bin"

/-- `lib_dir = os.path.join(destination, "lib", "python{}".format(
".".join(map(str, version[:2]))))` (lines 146-152). -/
def lib_dir (bp : BaseInterpreterInfo) (destination : String) : String :=
  os_path_join (os_path_join destination "lib")
    ("python" ++ String.intercalate "." ((bp.sys_version_info.take 2).map Nat.repr))

/-- `site_packages_dir = os.path.join(lib_dir, "site-packages")` (line 157). -/
def site_packages_dir (bp : BaseInterpreterInfo) (destination : String) : String :=
  os_path_join (lib_dir bp destination) "site-packages"

/-- The modules the site module needs for bootstrap (lines 179-183).  The
source writes this as a Python set literal, whose iteration order is
unspecified; it is embedded here in the order the literal lists them. -/
def bootstrapModules : List String :=
  ["posixpath.py", "stat.py", "genericpath.py", "warnings.py",
   "linecache.py", "types.py", "UserDict.py", "_abcoll.py", "abc.py",
   "_weakrefset.py", "copy_reg.py"]

/-- The filesystem operations of `create_virtual_environment`
(lines 129-204), in source order: create the bin directory; copy the base
executable under its three alias names; create the lib and site-packages
directories; copy the `os.py` sentinel; copy each bootstrap module; write
the rendered `site.py` (passing `destination` for both the `__PREFIX__` and
`__EXEC_PREFIX__` placeholders). -/
def buildOps (bp : BaseInterpreterInfo) (destination : String) : List Op :=
  [Op.ensureDir (bin_dir destination),
   Op.copy bp.executable
     (os_path_join (bin_dir destination) (python_bin_name bp.sys_version_info 0))
     (VEnvError.filesystemError bp.executable),
   Op.copy bp.executable
     (os_path_join (bin_dir destination) (python_bin_name bp.sys_version_info 1))
     (VEnvError.filesystemError bp.executable),
   Op.copy bp.executable
     (os_path_join (bin_dir destination) (python_bin_name bp.sys_version_info 2))
     (VEnvError.filesystemError bp.executable),
   Op.ensureDir (lib_dir bp destination),
   Op.ensureDir (site_packages_dir bp destination),
   Op.copy (os_path_join bp.lib "os.py")
     (os_path_join (lib_dir bp destination) "os.py")
     (VEnvError.missingDependencyModule "os.py")] ++
  bootstrapModules.map (fun m =>
    Op.copy (os_path_join bp.lib m)
      (os_path_join (lib_dir bp destination) m)
      (VEnvError.missingDependencyModule m)) ++
  [Op.write (os_path_join (lib_dir bp destination) "site.py")
    (render_site destination destination bp.prefix_path bp.exec_prefix_path bp.site_py)]

/-- `create_virtual_environment` on the filesystem model: executes the
builder's operations in order (the probe step is factored out; `bp` is the
`base_python` record it returned). -/
def create_virtual_environment (bp : BaseInterpreterInfo) (destination : String)
    (fs : FS) : Option VEnvError × FS :=
  runOps fs (buildOps bp destination)

/-! ## A concrete scenario (spec section 8), used by the witnesses -/

/-- The base interpreter of the spec's scenario: version `(2, 7, 18)`,
prefix and exec-prefix `/usr`, lib `/usr/lib/python2.7`, startup module
`/usr/lib/python2.7/site.py`. -/
def exampleBase : BaseInterpreterInfo :=
  ⟨[2, 7, 18], "/usr/bin/python", "/usr", "/usr", "/usr/lib/python2.7",
   "/usr/lib/python2.7/site.py"⟩

/-- A base filesystem holding the base executable (with its executable
permission bit set), the `os.py` sentinel and every bootstrap module. -/
def exampleBaseFS : FS :=
  ⟨[],
   ("/usr/bin/python", ⟨"ELF", true⟩) ::
   ("/usr/lib/python2.7/os.py", ⟨"os module", false⟩) ::
   bootstrapModules.map (fun m => ("/usr/lib/python2.7/" ++ m, ⟨m, false⟩))⟩

/-- A base filesystem whose library is missing `stat.py` (but has the
executable, the sentinel and the bootstrap module listed before `stat.py`). -/
def exampleBaseFSMissingStat : FS :=
  ⟨[],
   [("/usr/bin/python", ⟨"ELF", true⟩),
    ("/usr/lib/python2.7/os.py", ⟨"os module", false⟩),
    ("/usr/lib/python2.7/posixpath.py", ⟨"posixpath module", false⟩)]⟩

end Virtualenv

namespace Virtualenv

/-! ## Theorems -/

/-- Folding with an append of one rewritten element equals mapping. -/
theorem foldl_append_eq_map {β γ : Type} (f : β → γ) (l : List β) (init : List γ) :
    l.foldl (fun acc x => acc ++ [f x]) init = init ++ l.map f := by
  induction l generalizing init with
  | nil => simp
  | cons a l ih => simp [ih]

/-- C1: in the rendered startup script's path rewrite, every entry of the
module-search-path list that starts with the new-environment prefix is
replaced by the base prefix joined with the entry's remainder past the
prefix and its separator; otherwise, an entry that starts with the
new-environment exec-prefix is replaced likewise using the base exec-prefix;
every other entry is kept unchanged; order and number of entries are
preserved. -/
theorem new_sys_path_rewrites_every_entry (pre epre bpre bepre : String)
    (sysPath : List String) :
    new_sys_path pre epre bpre bepre sysPath
      = sysPath.map (fun path =>
          if pyStartsWith path pre then
            os_path_join bpre (pySlice path (pre.length + 1))
          else if pyStartsWith path epre then
            os_path_join bepre (pySlice path (epre.length + 1))
          else path)
    ∧ (new_sys_path pre epre bpre bepre sysPath).length = sysPath.length := by
  have h : new_sys_path pre epre bpre bepre sysPath
      = sysPath.map (rewrite_path_entry pre epre bpre bepre) := by
    have := foldl_append_eq_map (rewrite_path_entry pre epre bpre bepre) sysPath []
    simpa [new_sys_path] using this
  refine ⟨h, ?_⟩
  rw [h, List.length_map]

/-- Every entry of the module registry whose key is not on the hard-coded
allow-list is visited and deleted by the purge loop; allow-listed entries
survive. -/
theorem purge_loop_eq_filter {α : Type} (ks : List String) (ms : List (String × α))
    (h : ∀ kv ∈ ms, kv.1 ∉ never_purged → kv.1 ∈ ks) :
    purge_loop ks ms = ms.filter (fun kv => decide (kv.1 ∈ never_purged)) := by
  induction ks generalizing ms with
  | nil =>
    simp only [purge_loop]
    symm
    rw [List.filter_eq_self]
    intro kv hkv
    by_contra hnot
    exact absurd (h kv hkv (by simpa using hnot)) (List.not_mem_nil _)
  | cons k ks ih =>
    simp only [purge_loop]
    by_cases hk : k ∈ never_purged
    · rw [if_pos hk]
      apply ih
      intro kv hkv hnp
      rcases List.mem_cons.mp (h kv hkv hnp) with h1 | h2
      · exact absurd (h1 ▸ hk) hnp
      · exact h2
    · rw [if_neg hk]
      rw [ih (del_key ms k) ?_]
      · unfold del_key
        rw [List.filter_filter]
        apply List.filter_congr
        intro kv _
        by_cases hkv : kv.1 ∈ never_purged
        · have : kv.1 ≠ k := fun he => hk (he ▸ hkv)
          simp [hkv, this]
        · simp [hkv]
      · intro kv hkv hnp
        have hms : kv ∈ ms := List.mem_of_mem_filter hkv
        have hne : kv.1 ≠ k := by
          have := List.of_mem_filter hkv
          simpa using this
        rcases List.mem_cons.mp (h kv hms hnp) with h1 | h2
        · exact absurd h1 hne
        · exact h2

/-- C2 counterexample: a previously loaded module named `__builtin__`
survives the purge although it is not one of the four modules the claim
allows (the core runtime module `sys`, the startup module `site`, the
customization hook `sitecustomize` and the top-level program module
`__main__`). -/
theorem purge_keeps_builtin_module :
    purge_sys_modules [("__builtin__", (0 : Nat))] = [("__builtin__", (0 : Nat))]
    ∧ "__builtin__" ∉ ["sys", "site", "sitecustomize", "__main__"] := by
  decide

/-- C2 amended: the purge deletes every module-registry entry whose name is
not on the hard-coded five-element allow-list `sys`, `site`,
`sitecustomize`, `__builtin__`, `__main__`, and exactly the entries with an
allow-listed name survive, in order. -/
theorem purge_sys_modules_keeps_exactly_allowlist {α : Type}
    (modules : List (String × α)) :
    purge_sys_modules modules
      = modules.filter (fun kv =>
          decide (kv.1 ∈ ["sys", "site", "sitecustomize", "__builtin__", "__main__"])) := by
  have h := purge_loop_eq_filter (modules.map Prod.fst) modules
    (fun kv hkv _ => List.mem_map_of_mem Prod.fst hkv)
  simpa [purge_sys_modules, never_purged] using h

/-- C3: for a base interpreter with version tuple `(M, m, p)` the library
directory is `destination/lib/python{M}.{m}` — only the major and minor
components appear — and changing the micro component alone changes nothing
in the computed layout, nor in any other path the builder computes (the
binary directory is a function of the destination only, as its signature
shows). -/
theorem layout_uses_major_minor_only (M m p p' : Nat) (dest e pr epr l s : String) :
    lib_dir ⟨[M, m, p], e, pr, epr, l, s⟩ dest
      = os_path_join (os_path_join dest "lib")
          ("python" ++ Nat.repr M ++ "." ++ Nat.repr m)
    ∧ lib_dir ⟨[M, m, p], e, pr, epr, l, s⟩ dest
      = lib_dir ⟨[M, m, p'], e, pr, epr, l, s⟩ dest
    ∧ site_packages_dir ⟨[M, m, p], e, pr, epr, l, s⟩ dest
      = site_packages_dir ⟨[M, m, p'], e, pr, epr, l, s⟩ dest
    ∧ buildOps ⟨[M, m, p], e, pr, epr, l, s⟩ dest
      = buildOps ⟨[M, m, p'], e, pr, epr, l, s⟩ dest := by
  exact ⟨rfl, rfl, rfl, rfl⟩

set_option maxRecDepth 100000

/-- C5: rendering the startup-script template with `PREFIX=/env`,
`EXEC_PREFIX=/env`, `BASE_PREFIX=/usr`, `BASE_EXEC_PREFIX=/usr`,
`SITE=/usr/lib/startup.py` yields a string containing zero occurrences of
any of the five literal placeholder tokens and containing the substituted
strings `/env`, `/usr` and `/usr/lib/startup.py`; and the builder passes
the destination path for both the new-prefix and new-exec-prefix
placeholder slots of the rendering. -/
theorem rendered_site_substitutes_all_placeholders :
    (strOccurs "__PREFIX__"
        (render_site "/env" "/env" "/usr" "/usr" "/usr/lib/startup.py") = false
      ∧ strOccurs "__EXEC_PREFIX__"
          (render_site "/env" "/env" "/usr" "/usr" "/usr/lib/startup.py") = false
      ∧ strOccurs "__BASE_PREFIX__"
          (render_site "/env" "/env" "/usr" "/usr" "/usr/lib/startup.py") = false
      ∧ strOccurs "__BASE_EXEC_PREFIX__"
          (render_site "/env" "/env" "/usr" "/usr" "/usr/lib/startup.py") = false
      ∧ strOccurs "__SITE__"
          (render_site "/env" "/env" "/usr" "/usr" "/usr/lib/startup.py") = false
      ∧ strOccurs "/env"
          (render_site "/env" "/env" "/usr" "/usr" "/usr/lib/startup.py") = true
      ∧ strOccurs "/usr"
          (render_site "/env" "/env" "/usr" "/usr" "/usr/lib/startup.py") = true
      ∧ strOccurs "/usr/lib/startup.py"
          (render_site "/env" "/env" "/usr" "/usr" "/usr/lib/startup.py") = true)
    ∧ ∀ (bp : BaseInterpreterInfo) (dest : String),
        Op.write (os_path_join (lib_dir bp dest) "site.py")
          (render_site dest dest bp.prefix_path bp.exec_prefix_path bp.site_py)
          ∈ buildOps bp dest := by
  constructor
  · decide
  · intro bp dest
    simp [buildOps]

/-- C6 counterexample: with original flags `false`, spoofed stand-in `true`
and a failing wrapped execution, the flags-spoofing section propagates the
failure with the spoofed stand-in (`true`) still installed — not the
original flags structure (`false`), which the claim requires on every exit
path. -/
theorem flags_not_restored_on_failing_exec :
    run_flags_section false (fun _ => true) (some ()) = Except.error ((), true)
    ∧ (true : Bool) ≠ false := by
  exact ⟨rfl, by decide⟩

/-- C6 amended: the rendered script's flags-spoofing section restores the
original flags structure on the successful exit path only; when the wrapped
execution of the base startup module fails, the failure propagates with the
spoofed stand-in still installed (there is no defer/cleanup mechanism). -/
theorem flags_restored_only_on_success {φ ε : Type} (f0 : φ) (spoof : φ → φ) :
    run_flags_section f0 spoof (none : Option ε) = Except.ok f0
    ∧ ∀ e : ε, run_flags_section f0 spoof (some e) = Except.error (e, spoof f0) :=
  ⟨rfl, fun _ => rfl⟩

/-- C8: the probe returns the parsed structured record exactly when the
subprocess launches, exits zero and its output parses; it fails with the
matching `ProbeFailure` when the subprocess cannot be launched, exits
non-zero, or its output is not parseable structured data. -/
theorem probe_failure_taxonomy (parse : String → Option BaseInterpreterInfo) :
    get_base_python_info ProbeOutcome.launchFailure parse
      = Except.error ProbeFailure.launchFailed
    ∧ (∀ code out, code ≠ 0 →
        get_base_python_info (ProbeOutcome.launched code out) parse
          = Except.error (ProbeFailure.nonZeroExit code))
    ∧ (∀ out, parse out = none →
        get_base_python_info (ProbeOutcome.launched 0 out) parse
          = Except.error ProbeFailure.unparseableOutput)
    ∧ (∀ out info, parse out = some info →
        get_base_python_info (ProbeOutcome.launched 0 out) parse = Except.ok info) := by
  refine ⟨rfl, ?_, ?_, ?_⟩
  · intro code out hc
    simp [get_base_python_info, hc]
  · intro out hp
    simp [get_base_python_info, hp]
  · intro out info hp
    simp [get_base_python_info, hp]

/-- Witness for C8: a subprocess exiting with code 1 makes the probe fail
with `nonZeroExit 1`, and an output no parser accepts makes it fail with
`unparseableOutput`. -/
theorem probe_failure_taxonomy_witness :
    (1 ≠ 0)
    ∧ get_base_python_info (ProbeOutcome.launched 1 "bad")
        (fun _ => (none : Option BaseInterpreterInfo))
        = Except.error (ProbeFailure.nonZeroExit 1)
    ∧ get_base_python_info (ProbeOutcome.launched 0 "bad")
        (fun _ => (none : Option BaseInterpreterInfo))
        = Except.error ProbeFailure.unparseableOutput :=
  ⟨by decide,
   (probe_failure_taxonomy (fun _ => none)).2.1 1 "bad" (by decide),
   (probe_failure_taxonomy (fun _ => none)).2.2.1 "bad" rfl⟩

/-- C10: the availability check of the legacy builder returns `true` for
every base interpreter path — no interpreter is rejected as unusable with
this strategy. -/
theorem check_available_always_true (python : String) :
    check_available python = true :=
  rfl

/-! ## Lemmas about the filesystem model -/

theorem findFile_setAssoc_self (l : List (String × File)) (p : String) (f : File) :
    findFile (setAssoc l p f) p = some f := by
  induction l with
  | nil => simp [setAssoc, findFile]
  | cons kv rest ih =>
    by_cases h : kv.1 = p
    · simp [setAssoc, h, findFile]
    · simp [setAssoc, h, findFile, ih]

theorem findFile_setAssoc_ne (l : List (String × File)) (p q : String) (f : File)
    (h : q ≠ p) : findFile (setAssoc l p f) q = findFile l q := by
  induction l with
  | nil => simp [setAssoc, findFile, Ne.symm h]
  | cons kv rest ih =>
    by_cases hk : kv.1 = p
    · simp [setAssoc, hk, findFile, Ne.symm h]
    · simp only [setAssoc, hk, if_false, findFile]
      by_cases hq : kv.1 = q
      · simp [hq]
      · simp [hq, ih]

theorem setAssoc_of_findFile (l : List (String × File)) (p : String) (f : File)
    (h : findFile l p = some f) : setAssoc l p f = l := by
  induction l with
  | nil => simp [findFile] at h
  | cons kv rest ih =>
    by_cases hk : kv.1 = p
    · have : kv.2 = f := by
        simpa [findFile, hk] using h
      cases kv with
      | mk k v => simp_all [setAssoc]
    · have h' : findFile rest p = some f := by
        simpa [findFile, hk] using h
      cases kv with
      | mk k v =>
        simp only at hk
        simp [setAssoc, hk, ih h']

theorem lookupFile_setFile_self (fs : FS) (p : String) (f : File) :
    (fs.setFile p f).lookupFile p = some f :=
  findFile_setAssoc_self fs.files p f

theorem lookupFile_setFile_ne (fs : FS) (p q : String) (f : File) (h : q ≠ p) :
    (fs.setFile p f).lookupFile q = fs.lookupFile q :=
  findFile_setAssoc_ne fs.files p q f h

theorem setFile_of_lookupFile (fs : FS) (p : String) (f : File)
    (h : fs.lookupFile p = some f) : fs.setFile p f = fs := by
  cases fs with
  | mk dirs files =>
    simp only [FS.setFile]
    rw [setAssoc_of_findFile files p f h]

theorem dirs_setFile (fs : FS) (p : String) (f : File) :
    (fs.setFile p f).dirs = fs.dirs :=
  rfl

theorem lookupFile_ensure_directory (fs : FS) (d p : String) :
    (fs.ensure_directory d).lookupFile p = fs.lookupFile p := by
  unfold FS.ensure_directory
  by_cases h : d ∈ fs.dirs <;> simp [h, FS.lookupFile]

theorem mem_dirs_ensure_directory_self (fs : FS) (d : String) :
    d ∈ (fs.ensure_directory d).dirs := by
  unfold FS.ensure_directory
  by_cases h : d ∈ fs.dirs <;> simp [h]

theorem mem_dirs_ensure_directory (fs : FS) (d p : String) (h : p ∈ fs.dirs) :
    p ∈ (fs.ensure_directory d).dirs := by
  unfold FS.ensure_directory
  by_cases hd : d ∈ fs.dirs <;> simp [hd, h]

theorem ensure_directory_of_mem (fs : FS) (d : String) (h : d ∈ fs.dirs) :
    fs.ensure_directory d = fs := by
  unfold FS.ensure_directory
  simp [h]

/-! ## Lemmas about operation sequences -/

theorem writesOf_nil : writesOf [] = [] := rfl

theorem writesOf_cons (op : Op) (ops : List Op) :
    writesOf (op :: ops)
      = match op.writeTarget with
        | some d => d :: writesOf ops
        | none => writesOf ops := by
  simp [writesOf, List.filterMap_cons]
  cases op <;> simp [Op.writeTarget]

theorem readsOf_cons (op : Op) (ops : List Op) :
    readsOf (op :: ops)
      = match op.readSource with
        | some s => s :: readsOf ops
        | none => readsOf ops := by
  simp [readsOf, List.filterMap_cons]
  cases op <;> simp [Op.readSource]

theorem writesOf_append (l₁ l₂ : List Op) :
    writesOf (l₁ ++ l₂) = writesOf l₁ ++ writesOf l₂ := by
  simp [writesOf, List.filterMap_append]

theorem readsOf_append (l₁ l₂ : List Op) :
    readsOf (l₁ ++ l₂) = readsOf l₁ ++ readsOf l₂ := by
  simp [readsOf, List.filterMap_append]

theorem runOps_append_ok (l₁ l₂ : List Op) (fs fs₁ : FS)
    (h : runOps fs l₁ = (none, fs₁)) :
    runOps fs (l₁ ++ l₂) = runOps fs₁ l₂ := by
  induction l₁ generalizing fs with
  | nil =>
    have : fs = fs₁ := by simpa [runOps] using h
    simp [this]
  | cons op rest ih =>
    cases hop : runOp fs op with
    | mk e fs' =>
      cases e with
      | some e =>
        exfalso
        have : (some e, fs') = ((none : Option VEnvError), fs₁) := by
          simpa [runOps, hop] using h
        simp at this
      | none =>
        have hrest : runOps fs' rest = (none, fs₁) := by
          simpa [runOps, hop] using h
        simp [runOps, hop, ih fs' hrest]

theorem runOp_dirs_mono (fs : FS) (op : Op) (p : String) (h : p ∈ fs.dirs) :
    p ∈ (runOp fs op).2.dirs := by
  cases op with
  | ensureDir d => exact mem_dirs_ensure_directory fs d p h
  | copy s d e =>
    simp only [runOp, FS.copyfile]
    cases fs.lookupFile s <;> simpa [dirs_setFile]
  | write d c => simpa [runOp, dirs_setFile]

theorem runOps_dirs_mono (ops : List Op) (fs : FS) (p : String) (h : p ∈ fs.dirs) :
    p ∈ (runOps fs ops).2.dirs := by
  induction ops generalizing fs with
  | nil => simpa [runOps]
  | cons op rest ih =>
    cases hop : runOp fs op with
    | mk e fs' =>
      have hfs' : p ∈ fs'.dirs := by
        have := runOp_dirs_mono fs op p h
        rwa [hop] at this
      cases e with
      | some e => simpa [runOps, hop]
      | none => simpa [runOps, hop] using ih fs' hfs'

theorem runOp_lookupFile_not_written (fs : FS) (op : Op) (p : String)
    (h : ∀ q, op.writeTarget = some q → p ≠ q) :
    (runOp fs op).2.lookupFile p = fs.lookupFile p := by
  cases op with
  | ensureDir d => simpa [runOp] using lookupFile_ensure_directory fs d p
  | copy s d e =>
    have hpd : p ≠ d := h d rfl
    simp only [runOp, FS.copyfile]
    cases hsl : fs.lookupFile s with
    | none => simp
    | some f => simpa using lookupFile_setFile_ne fs d p f hpd
  | write d c =>
    have hpd : p ≠ d := h d rfl
    simpa [runOp] using lookupFile_setFile_ne fs d p ⟨c, false⟩ hpd

theorem runOps_lookupFile_not_written (ops : List Op) (fs : FS) (p : String)
    (h : p ∉ writesOf ops) :
    (runOps fs ops).2.lookupFile p = fs.lookupFile p := by
  induction ops generalizing fs with
  | nil => simp [runOps]
  | cons op rest ih =>
    have hop_w : ∀ q, op.writeTarget = some q → p ≠ q := by
      intro q hq he
      apply h
      rw [writesOf_cons, hq, he]
      exact List.mem_cons_self q (writesOf rest)
    have hrest_w : p ∉ writesOf rest := by
      intro hc
      apply h
      rw [writesOf_cons]
      cases hw : op.writeTarget <;> simp [hc]
    cases hop : runOp fs op with
    | mk e fs' =>
      have hfs' : fs'.lookupFile p = fs.lookupFile p := by
        have := runOp_lookupFile_not_written fs op p hop_w
        rwa [hop] at this
      cases e with
      | some e => simpa [runOps, hop]
      | none =>
        have := ih fs' hrest_w
        simpa [runOps, hop, hfs'] using this

theorem runOps_no_error (ops : List Op) (fs : FS)
    (h : ∀ s ∈ readsOf ops, (fs.lookupFile s).isSome ∧ s ∉ writesOf ops) :
    (runOps fs ops).1 = none := by
  induction ops generalizing fs with
  | nil => simp [runOps]
  | cons op rest ih
  => cases op with
  | ensureDir d =>
    have h' : ∀ s ∈ readsOf rest, ((fs.ensure_directory d).lookupFile s).isSome
        ∧ s ∉ writesOf rest := by
      intro s hs
      have hmem : s ∈ readsOf (Op.ensureDir d :: rest) := by
        rw [readsOf_cons]
        exact hs
      obtain ⟨h1, h2⟩ := h s hmem
      refine ⟨by rwa [lookupFile_ensure_directory], ?_⟩
      intro hc
      apply h2
      rw [writesOf_cons]
      simpa [Op.writeTarget] using hc
    simpa [runOps, runOp] using ih (fs.ensure_directory d) h'
  | copy s d e =>
    have hsrc : (fs.lookupFile s).isSome ∧ s ∉ writesOf (Op.copy s d e :: rest) := by
      apply h
      rw [readsOf_cons]
      exact List.mem_cons_self s (readsOf rest)
    obtain ⟨f, hf⟩ := Option.isSome_iff_exists.mp hsrc.1
    have h' : ∀ x ∈ readsOf rest, ((fs.setFile d f).lookupFile x).isSome
        ∧ x ∉ writesOf rest := by
      intro x hx
      have hmem : x ∈ readsOf (Op.copy s d e :: rest) := by
        rw [readsOf_cons]
        exact List.mem_cons_of_mem s hx
      obtain ⟨h1, h2⟩ := h x hmem
      have hxd : x ≠ d := by
        intro he
        apply h2
        rw [writesOf_cons]
        simp [Op.writeTarget, he]
      refine ⟨by rwa [lookupFile_setFile_ne fs d x f hxd], ?_⟩
      intro hc
      apply h2
      rw [writesOf_cons]
      simp [Op.writeTarget, hc]
    simpa [runOps, runOp, FS.copyfile, hf] using ih (fs.setFile d f) h'
  | write d c =>
    have h' : ∀ x ∈ readsOf rest, ((fs.setFile d ⟨c, false⟩).lookupFile x).isSome
        ∧ x ∉ writesOf rest := by
      intro x hx
      have hmem : x ∈ readsOf (Op.write d c :: rest) := by
        rw [readsOf_cons]
        exact hx
      obtain ⟨h1, h2⟩ := h x hmem
      have hxd : x ≠ d := by
        intro he
        apply h2
        rw [writesOf_cons]
        simp [Op.writeTarget, he]
      refine ⟨by rwa [lookupFile_setFile_ne fs d x ⟨c, false⟩ hxd], ?_⟩
      intro hc
      apply h2
      rw [writesOf_cons]
      simp [Op.writeTarget, hc]
    simpa [runOps, runOp] using ih (fs.setFile d ⟨c, false⟩) h'

theorem runOps_append_err (l₁ l₂ : List Op) (fs fs₁ : FS) (e : VEnvError)
    (h : runOps fs l₁ = (some e, fs₁)) :
    runOps fs (l₁ ++ l₂) = (some e, fs₁) := by
  induction l₁ generalizing fs with
  | nil => simp [runOps] at h
  | cons op rest ih =>
    cases hop : runOp fs op with
    | mk e' fs' =>
      cases e' with
      | some e' =>
        have hh : ((some e' : Option VEnvError), fs') = (some e, fs₁) := by
          simpa [runOps, hop] using h
        simp only [Prod.mk.injEq, Option.some.injEq] at hh
        simp [runOps, hop, hh.1, hh.2]
      | none =>
        have hrest : runOps fs' rest = (some e, fs₁) := by
          simpa [runOps, hop] using h
        simp [runOps, hop, ih fs' hrest]

theorem runOps_prefix_no_error (l₁ l₂ : List Op) (fs : FS)
    (h : (runOps fs (l₁ ++ l₂)).1 = none) : (runOps fs l₁).1 = none := by
  cases he : (runOps fs l₁).1 with
  | none => rfl
  | some e =>
    exfalso
    have hpair : runOps fs l₁ = (some e, (runOps fs l₁).2) := by rw [← he]
    rw [runOps_append_err l₁ l₂ fs _ e hpair] at h
    simp at h

theorem nodup_writes_split (g1 g2 : List Op) (op : Op) (d : String)
    (hop : op.writeTarget = some d)
    (hnodup : (writesOf (g1 ++ op :: g2)).Nodup) :
    d ∉ writesOf g1 ∧ d ∉ writesOf g2 := by
  rw [writesOf_append, writesOf_cons, hop] at hnodup
  obtain ⟨h1, h2, hdisj⟩ := List.nodup_append.mp hnodup
  refine ⟨fun hc => hdisj hc (List.mem_cons_self d (writesOf g2)), ?_⟩
  exact (List.nodup_cons.mp h2).1

/-- The state after a successful prefix, a copy whose source holds `f`, and
an arbitrary suffix that never overwrites the copy's destination, holds `f`
at the destination. -/
theorem runOps_through_copy (g1 g2 : List Op) (s d : String) (e : VEnvError)
    (fs : FS) (f : File)
    (h1 : (runOps fs g1).1 = none)
    (hsrc : fs.lookupFile s = some f)
    (hs : s ∉ writesOf g1)
    (hd : d ∉ writesOf g2) :
    (runOps fs (g1 ++ Op.copy s d e :: g2)).2.lookupFile d = some f := by
  have hpair : runOps fs g1 = (none, (runOps fs g1).2) := by rw [← h1]
  rw [runOps_append_ok g1 _ fs _ hpair]
  have hlk : (runOps fs g1).2.lookupFile s = some f := by
    rw [runOps_lookupFile_not_written g1 fs s hs, hsrc]
  simp only [runOps, runOp, FS.copyfile, hlk, Option.map_some']
  rw [runOps_lookupFile_not_written g2 _ d hd]
  exact lookupFile_setFile_self _ d f

/-- A directory ensured along the way exists in the final state, provided
execution reaches the `ensure_directory` call. -/
theorem runOps_through_ensureDir (g1 g2 : List Op) (d : String) (fs : FS)
    (h1 : (runOps fs g1).1 = none) :
    d ∈ (runOps fs (g1 ++ Op.ensureDir d :: g2)).2.dirs := by
  have hpair : runOps fs g1 = (none, (runOps fs g1).2) := by rw [← h1]
  rw [runOps_append_ok g1 _ fs _ hpair]
  simp only [runOps, runOp]
  exact runOps_dirs_mono g2 _ d (mem_dirs_ensure_directory_self _ d)

/-- A run that reaches a copy whose source is missing stops there, raising
the copy's error and leaving exactly the state the successful prefix
produced. -/
theorem runOps_fails_at_missing_copy (g1 g2 : List Op) (s d : String)
    (e : VEnvError) (fs : FS)
    (hok : (runOps fs g1).1 = none)
    (hs : s ∉ writesOf g1)
    (hm : fs.lookupFile s = none) :
    runOps fs (g1 ++ Op.copy s d e :: g2) = (some e, (runOps fs g1).2) := by
  have hpair : runOps fs g1 = (none, (runOps fs g1).2) := by rw [← hok]
  rw [runOps_append_ok g1 _ fs _ hpair]
  have hlk : (runOps fs g1).2.lookupFile s = none := by
    rw [runOps_lookupFile_not_written g1 fs s hs, hm]
  simp [runOps, runOp, FS.copyfile, hlk]

/-- The destination of any copy operation of a successful run holds the
file its source held initially, provided no operation writes the source and
no two operations write the same path. -/
theorem runOps_lookup_of_copy_mem (ops : List Op) (s d : String) (e : VEnvError)
    (fs : FS) (f : File)
    (hmem : Op.copy s d e ∈ ops)
    (hok : (runOps fs ops).1 = none)
    (hsrc : fs.lookupFile s = some f)
    (hs : s ∉ writesOf ops)
    (hnodup : (writesOf ops).Nodup) :
    (runOps fs ops).2.lookupFile d = some f := by
  obtain ⟨l₁, l₂, rfl⟩ := List.append_of_mem hmem
  have h1 : (runOps fs l₁).1 = none := runOps_prefix_no_error l₁ _ fs hok
  have hs1 : s ∉ writesOf l₁ := by
    rw [writesOf_append] at hs
    exact fun hc => hs (List.mem_append_left _ hc)
  have hd2 : d ∉ writesOf l₂ :=
    (nodup_writes_split l₁ l₂ (Op.copy s d e) d rfl hnodup).2
  exact runOps_through_copy l₁ l₂ s d e fs f h1 hsrc hs1 hd2

/-- Every directory ensured by an operation of a successful run exists in
the final state. -/
theorem runOps_dirs_of_ensureDir_mem (ops : List Op) (d : String) (fs : FS)
    (hmem : Op.ensureDir d ∈ ops)
    (hok : (runOps fs ops).1 = none) :
    d ∈ (runOps fs ops).2.dirs := by
  obtain ⟨l₁, l₂, rfl⟩ := List.append_of_mem hmem
  exact runOps_through_ensureDir l₁ l₂ d fs (runOps_prefix_no_error l₁ _ fs hok)

/-- Re-running a successful operation sequence from its own result changes
nothing: every directory it ensures already exists, and every file it
writes already holds the value it is about to write, because reads are
disjoint from writes and no path is written twice. -/
theorem runOps_idempotent (ops : List Op) (fs fs₁ : FS)
    (hrun : runOps fs ops = (none, fs₁))
    (hdisj : ∀ p ∈ readsOf ops, p ∉ writesOf ops)
    (hnodup : (writesOf ops).Nodup) :
    runOps fs₁ ops = (none, fs₁) := by
  induction ops generalizing fs with
  | nil =>
    have h : fs = fs₁ := by simpa [runOps] using hrun
    subst h
    rfl
  | cons op rest ih =>
    have hdisj' : ∀ p ∈ readsOf rest, p ∉ writesOf rest := by
      intro p hp hc
      have hp' : p ∈ readsOf (op :: rest) := by
        rw [readsOf_cons]
        cases hr : op.readSource <;> simp [hp]
      apply hdisj p hp'
      rw [writesOf_cons]
      cases hw : op.writeTarget <;> simp [hc]
    have hnodup' : (writesOf rest).Nodup := by
      rw [writesOf_cons] at hnodup
      cases hw : op.writeTarget with
      | none => rwa [hw] at hnodup
      | some d =>
        rw [hw] at hnodup
        exact (List.nodup_cons.mp hnodup).2
    cases op with
    | ensureDir d =>
      have hrest : runOps (fs.ensure_directory d) rest = (none, fs₁) := by
        simpa [runOps, runOp] using hrun
      have hd1 : d ∈ fs₁.dirs := by
        have h := runOps_dirs_mono rest (fs.ensure_directory d) d
          (mem_dirs_ensure_directory_self fs d)
        rwa [hrest] at h
      have hstep : fs₁.ensure_directory d = fs₁ := ensure_directory_of_mem fs₁ d hd1
      have hih := ih (fs.ensure_directory d) hrest hdisj' hnodup'
      simp [runOps, runOp, hstep, hih]
    | copy s d e =>
      cases hsl : fs.lookupFile s with
      | none =>
        exfalso
        have h : ((some e : Option VEnvError), fs) = ((none : Option VEnvError), fs₁) := by
          simpa [runOps, runOp, FS.copyfile, hsl] using hrun
        simp at h
      | some f =>
        have hrest : runOps (fs.setFile d f) rest = (none, fs₁) := by
          simpa [runOps, runOp, FS.copyfile, hsl] using hrun
        have hsin : s ∈ readsOf (Op.copy s d e :: rest) := by
          rw [readsOf_cons]
          exact List.mem_cons_self s (readsOf rest)
        have hsW : s ∉ writesOf (Op.copy s d e :: rest) := hdisj s hsin
        have hsd : s ≠ d := by
          intro he
          apply hsW
          rw [writesOf_cons]
          simp [Op.writeTarget, he]
        have hs_rest : s ∉ writesOf rest := by
          intro hc
          apply hsW
          rw [writesOf_cons]
          simp [Op.writeTarget, hc]
        have hd_rest : d ∉ writesOf rest := by
          rw [writesOf_cons] at hnodup
          exact (List.nodup_cons.mp hnodup).1
        have h1 : fs₁.lookupFile s = some f := by
          have hpres := runOps_lookupFile_not_written rest (fs.setFile d f) s hs_rest
          rw [hrest] at hpres
          rw [hpres, lookupFile_setFile_ne fs d s f hsd, hsl]
        have h2 : fs₁.lookupFile d = some f := by
          have hpres := runOps_lookupFile_not_written rest (fs.setFile d f) d hd_rest
          rw [hrest] at hpres
          rw [hpres, lookupFile_setFile_self]
        have hset : fs₁.setFile d f = fs₁ := setFile_of_lookupFile fs₁ d f h2
        have hih := ih (fs.setFile d f) hrest hdisj' hnodup'
        simp [runOps, runOp, FS.copyfile, h1, hset, hih]
    | write d c =>
      have hrest : runOps (fs.setFile d ⟨c, false⟩) rest = (none, fs₁) := by
        simpa [runOps, runOp] using hrun
      have hd_rest : d ∉ writesOf rest := by
        rw [writesOf_cons] at hnodup
        exact (List.nodup_cons.mp hnodup).1
      have h2 : fs₁.lookupFile d = some ⟨c, false⟩ := by
        have hpres := runOps_lookupFile_not_written rest (fs.setFile d ⟨c, false⟩) d hd_rest
        rw [hrest] at hpres
        rw [hpres, lookupFile_setFile_self]
      have hset : fs₁.setFile d ⟨c, false⟩ = fs₁ := setFile_of_lookupFile fs₁ d _ h2
      have hih := ih (fs.setFile d ⟨c, false⟩) hrest hdisj' hnodup'
      simp [runOps, runOp, hset, hih]

/-! ## The builder's read and write sets -/

theorem readsOf_buildOps (bp : BaseInterpreterInfo) (dest : String) :
    readsOf (buildOps bp dest)
      = bp.executable :: bp.executable :: bp.executable
        :: os_path_join bp.lib "os.py"
        :: bootstrapModules.map (fun m => os_path_join bp.lib m) :=
  rfl

theorem writesOf_buildOps (bp : BaseInterpreterInfo) (dest : String) :
    writesOf (buildOps bp dest)
      = os_path_join (bin_dir dest) (python_bin_name bp.sys_version_info 0)
        :: os_path_join (bin_dir dest) (python_bin_name bp.sys_version_info 1)
        :: os_path_join (bin_dir dest) (python_bin_name bp.sys_version_info 2)
        :: os_path_join (lib_dir bp dest) "os.py"
        :: (bootstrapModules.map (fun m => os_path_join (lib_dir bp dest) m)
            ++ [os_path_join (lib_dir bp dest) "site.py"]) :=
  rfl

theorem readsOf_map_copy_module (bp : BaseInterpreterInfo) (dest : String)
    (mods : List String) :
    readsOf (mods.map (fun m =>
        Op.copy (os_path_join bp.lib m) (os_path_join (lib_dir bp dest) m)
          (VEnvError.missingDependencyModule m)))
      = mods.map (fun m => os_path_join bp.lib m) := by
  induction mods with
  | nil => rfl
  | cons a l ih =>
    rw [List.map_cons, readsOf_cons]
    simp only [Op.readSource]
    rw [ih, List.map_cons]

theorem writesOf_map_copy_module (bp : BaseInterpreterInfo) (dest : String)
    (mods : List String) :
    writesOf (mods.map (fun m =>
        Op.copy (os_path_join bp.lib m) (os_path_join (lib_dir bp dest) m)
          (VEnvError.missingDependencyModule m)))
      = mods.map (fun m => os_path_join (lib_dir bp dest) m) := by
  induction mods with
  | nil => rfl
  | cons a l ih =>
    rw [List.map_cons, writesOf_cons]
    simp only [Op.writeTarget]
    rw [ih, List.map_cons]

/-- C4: after a successful construction, the binary directory holds the base
executable under the three alias names obtained by truncating the version
tuple to 0, 1 and 2 leading components (for version `(M, m, p)` and
interpreter name `python`: `python`, `python{M}`, `python{M}.{m}`), each a
byte-identical copy of the source executable record, whose executable
permission bit is set. -/
theorem staged_binary_aliases (bp : BaseInterpreterInfo) (destination : String)
    (fs : FS) (f : File)
    (hexe : fs.lookupFile bp.executable = some f)
    (hx : f.executable = true)
    (hrun : (create_virtual_environment bp destination fs).1 = none)
    (hdisj : ∀ p ∈ readsOf (buildOps bp destination),
        p ∉ writesOf (buildOps bp destination))
    (hnodup : (writesOf (buildOps bp destination)).Nodup) :
    ((create_virtual_environment bp destination fs).2.lookupFile
        (os_path_join (bin_dir destination) (python_bin_name bp.sys_version_info 0))
      = some f)
    ∧ ((create_virtual_environment bp destination fs).2.lookupFile
        (os_path_join (bin_dir destination) (python_bin_name bp.sys_version_info 1))
      = some f)
    ∧ ((create_virtual_environment bp destination fs).2.lookupFile
        (os_path_join (bin_dir destination) (python_bin_name bp.sys_version_info 2))
      = some f)
    ∧ f.executable = true := by
  have hexeR : bp.executable ∈ readsOf (buildOps bp destination) := by
    rw [readsOf_buildOps]
    exact List.mem_cons_self _ _
  have hs : bp.executable ∉ writesOf (buildOps bp destination) := hdisj _ hexeR
  refine ⟨?_, ?_, ?_, hx⟩
  · apply runOps_lookup_of_copy_mem (buildOps bp destination) bp.executable _
      (VEnvError.filesystemError bp.executable) fs f ?_ hrun hexe hs hnodup
    simp [buildOps]
  · apply runOps_lookup_of_copy_mem (buildOps bp destination) bp.executable _
      (VEnvError.filesystemError bp.executable) fs f ?_ hrun hexe hs hnodup
    simp [buildOps]
  · apply runOps_lookup_of_copy_mem (buildOps bp destination) bp.executable _
      (VEnvError.filesystemError bp.executable) fs f ?_ hrun hexe hs hnodup
    simp [buildOps]

/-- Witness for C4: in the spec's concrete scenario (version `(2, 7, 18)`,
destination `/tmp/env`), the staged aliases `/tmp/env/bin/python`,
`/tmp/env/bin/python2` and `/tmp/env/bin/python2.7` all hold the base
executable with its executable bit set. -/
theorem staged_binary_aliases_witness :
    exampleBaseFS.lookupFile exampleBase.executable = some ⟨"ELF", true⟩
    ∧ ((create_virtual_environment exampleBase "/tmp/env" exampleBaseFS).2.lookupFile
        (os_path_join (bin_dir "/tmp/env") (python_bin_name exampleBase.sys_version_info 0))
      = some ⟨"ELF", true⟩)
    ∧ ((create_virtual_environment exampleBase "/tmp/env" exampleBaseFS).2.lookupFile
        (os_path_join (bin_dir "/tmp/env") (python_bin_name exampleBase.sys_version_info 1))
      = some ⟨"ELF", true⟩)
    ∧ ((create_virtual_environment exampleBase "/tmp/env" exampleBaseFS).2.lookupFile
        (os_path_join (bin_dir "/tmp/env") (python_bin_name exampleBase.sys_version_info 2))
      = some ⟨"ELF", true⟩) := by
  have h := staged_binary_aliases exampleBase "/tmp/env" exampleBaseFS ⟨"ELF", true⟩
    (by decide) (by decide) (by decide) (by decide) (by decide)
  exact ⟨by decide, h.1, h.2.1, h.2.2.1⟩

/-- C9: running the full construction a second time against the destination
produced by a successful first run reproduces exactly the same filesystem
(and again succeeds), provided the construction's reads are disjoint from
its writes and no path is written twice — both facts that hold whenever the
base installation lies outside the destination. -/
theorem create_virtual_environment_idempotent (bp : BaseInterpreterInfo)
    (destination : String) (fs fs₁ : FS)
    (hrun : create_virtual_environment bp destination fs = (none, fs₁))
    (hdisj : ∀ p ∈ readsOf (buildOps bp destination),
        p ∉ writesOf (buildOps bp destination))
    (hnodup : (writesOf (buildOps bp destination)).Nodup) :
    create_virtual_environment bp destination fs₁ = (none, fs₁) :=
  runOps_idempotent (buildOps bp destination) fs fs₁ hrun hdisj hnodup

/-- Witness for C9: in the spec's concrete scenario, the first run succeeds,
its reads avoid its writes, no path is written twice, and the second run
returns the first run's tree unchanged. -/
theorem create_virtual_environment_idempotent_witness :
    create_virtual_environment exampleBase "/tmp/env" exampleBaseFS
      = (none, (create_virtual_environment exampleBase "/tmp/env" exampleBaseFS).2)
    ∧ (∀ p ∈ readsOf (buildOps exampleBase "/tmp/env"),
        p ∉ writesOf (buildOps exampleBase "/tmp/env"))
    ∧ (writesOf (buildOps exampleBase "/tmp/env")).Nodup
    ∧ create_virtual_environment exampleBase "/tmp/env"
        (create_virtual_environment exampleBase "/tmp/env" exampleBaseFS).2
      = (none, (create_virtual_environment exampleBase "/tmp/env" exampleBaseFS).2) := by
  have h1 : create_virtual_environment exampleBase "/tmp/env" exampleBaseFS
      = (none, (create_virtual_environment exampleBase "/tmp/env" exampleBaseFS).2) := by
    have hfst : (create_virtual_environment exampleBase "/tmp/env" exampleBaseFS).1
        = none := by decide
    rw [← hfst]
  have h2 : ∀ p ∈ readsOf (buildOps exampleBase "/tmp/env"),
      p ∉ writesOf (buildOps exampleBase "/tmp/env") := by decide
  have h3 : (writesOf (buildOps exampleBase "/tmp/env")).Nodup := by decide
  exact ⟨h1, h2, h3,
    create_virtual_environment_idempotent exampleBase "/tmp/env" exampleBaseFS _ h1 h2 h3⟩

/-- C7: when the base library holds the sentinel and the bootstrap modules
listed before `m` but lacks `m` itself, the construction fails with
`MissingDependencyModule m` — naming the specific missing file — and the
partially built state remains: the three directories exist, the three binary
aliases and the `os.py` sentinel copy hold their staged files, and every
module copied before the failure still holds the base library's file (no
rollback). -/
theorem staging_failure_names_missing_module (bp : BaseInterpreterInfo)
    (destination : String) (fs : FS) (fexe fos : File) (pre post : List String)
    (m : String)
    (hsplit : bootstrapModules = pre ++ m :: post)
    (hexe : fs.lookupFile bp.executable = some fexe)
    (hos : fs.lookupFile (os_path_join bp.lib "os.py") = some fos)
    (hpre : ∀ x ∈ pre, (fs.lookupFile (os_path_join bp.lib x)).isSome)
    (hm : fs.lookupFile (os_path_join bp.lib m) = none)
    (hdisj : ∀ p ∈ readsOf (buildOps bp destination),
        p ∉ writesOf (buildOps bp destination))
    (hnodup : (writesOf (buildOps bp destination)).Nodup) :
    (create_virtual_environment bp destination fs).1
      = some (VEnvError.missingDependencyModule m)
    ∧ bin_dir destination ∈ (create_virtual_environment bp destination fs).2.dirs
    ∧ lib_dir bp destination ∈ (create_virtual_environment bp destination fs).2.dirs
    ∧ site_packages_dir bp destination
        ∈ (create_virtual_environment bp destination fs).2.dirs
    ∧ (create_virtual_environment bp destination fs).2.lookupFile
        (os_path_join (bin_dir destination) (python_bin_name bp.sys_version_info 0))
      = some fexe
    ∧ (create_virtual_environment bp destination fs).2.lookupFile
        (os_path_join (bin_dir destination) (python_bin_name bp.sys_version_info 1))
      = some fexe
    ∧ (create_virtual_environment bp destination fs).2.lookupFile
        (os_path_join (bin_dir destination) (python_bin_name bp.sys_version_info 2))
      = some fexe
    ∧ (create_virtual_environment bp destination fs).2.lookupFile
        (os_path_join (lib_dir bp destination) "os.py") = some fos
    ∧ ∀ x ∈ pre, (create_virtual_environment bp destination fs).2.lookupFile
        (os_path_join (lib_dir bp destination) x)
      = fs.lookupFile (os_path_join bp.lib x) := by
  have key : ∃ G1 G2 : List Op,
      buildOps bp destination
        = G1 ++ Op.copy (os_path_join bp.lib m)
            (os_path_join (lib_dir bp destination) m)
            (VEnvError.missingDependencyModule m) :: G2
      ∧ readsOf G1 = bp.executable :: bp.executable :: bp.executable
          :: os_path_join bp.lib "os.py"
          :: pre.map (fun x => os_path_join bp.lib x)
      ∧ Op.ensureDir (bin_dir destination) ∈ G1
      ∧ Op.ensureDir (lib_dir bp destination) ∈ G1
      ∧ Op.ensureDir (site_packages_dir bp destination) ∈ G1
      ∧ Op.copy bp.executable
          (os_path_join (bin_dir destination) (python_bin_name bp.sys_version_info 0))
          (VEnvError.filesystemError bp.executable) ∈ G1
      ∧ Op.copy bp.executable
          (os_path_join (bin_dir destination) (python_bin_name bp.sys_version_info 1))
          (VEnvError.filesystemError bp.executable) ∈ G1
      ∧ Op.copy bp.executable
          (os_path_join (bin_dir destination) (python_bin_name bp.sys_version_info 2))
          (VEnvError.filesystemError bp.executable) ∈ G1
      ∧ Op.copy (os_path_join bp.lib "os.py")
          (os_path_join (lib_dir bp destination) "os.py")
          (VEnvError.missingDependencyModule "os.py") ∈ G1
      ∧ ∀ x ∈ pre, Op.copy (os_path_join bp.lib x)
          (os_path_join (lib_dir bp destination) x)
          (VEnvError.missingDependencyModule x) ∈ G1 := by
    refine ⟨[Op.ensureDir (bin_dir destination),
        Op.copy bp.executable
          (os_path_join (bin_dir destination) (python_bin_name bp.sys_version_info 0))
          (VEnvError.filesystemError bp.executable),
        Op.copy bp.executable
          (os_path_join (bin_dir destination) (python_bin_name bp.sys_version_info 1))
          (VEnvError.filesystemError bp.executable),
        Op.copy bp.executable
          (os_path_join (bin_dir destination) (python_bin_name bp.sys_version_info 2))
          (VEnvError.filesystemError bp.executable),
        Op.ensureDir (lib_dir bp destination),
        Op.ensureDir (site_packages_dir bp destination),
        Op.copy (os_path_join bp.lib "os.py")
          (os_path_join (lib_dir bp destination) "os.py")
          (VEnvError.missingDependencyModule "os.py")]
      ++ pre.map (fun x => Op.copy (os_path_join bp.lib x)
          (os_path_join (lib_dir bp destination) x)
          (VEnvError.missingDependencyModule x)),
      post.map (fun x => Op.copy (os_path_join bp.lib x)
          (os_path_join (lib_dir bp destination) x)
          (VEnvError.missingDependencyModule x))
      ++ [Op.write (os_path_join (lib_dir bp destination) "site.py")
          (render_site destination destination bp.prefix_path bp.exec_prefix_path
            bp.site_py)],
      ?_, ?_, ?_, ?_, ?_, ?_, ?_, ?_, ?_, ?_⟩
    · simp only [buildOps]
      rw [hsplit]
      simp [List.append_assoc]
    · rw [readsOf_append, readsOf_map_copy_module]
      rfl
    · simp
    · simp
    · simp
    · simp
    · simp
    · simp
    · simp
    · intro x hx
      exact List.mem_append_right _ (List.mem_map_of_mem _ hx)
  obtain ⟨G1, G2, hops, hreads, hmDbin, hmDlib, hmDsp, hmB0, hmB1, hmB2, hmOs, hmMod⟩ := key
  have hWsub : ∀ p, p ∈ writesOf G1 → p ∈ writesOf (buildOps bp destination) := by
    intro p hp
    rw [hops, writesOf_append]
    exact List.mem_append_left _ hp
  have hRsub : ∀ p, p ∈ readsOf G1 → p ∈ readsOf (buildOps bp destination) := by
    intro p hp
    rw [hops, readsOf_append]
    exact List.mem_append_left _ hp
  have hnotW : ∀ p, p ∈ readsOf G1 → p ∉ writesOf G1 :=
    fun p hp hc => hdisj p (hRsub p hp) (hWsub _ hc)
  have hnodupG1 : (writesOf G1).Nodup := by
    rw [hops, writesOf_append] at hnodup
    exact (List.nodup_append.mp hnodup).1
  have hexeR : bp.executable ∈ readsOf G1 := by
    rw [hreads]
    exact List.mem_cons_self _ _
  have hosR : os_path_join bp.lib "os.py" ∈ readsOf G1 := by
    rw [hreads]
    simp
  have hmodR : ∀ x ∈ pre, os_path_join bp.lib x ∈ readsOf G1 := by
    intro x hx
    rw [hreads]
    simp only [List.mem_cons]
    right; right; right; right
    exact List.mem_map_of_mem _ hx
  have hokG1 : (runOps fs G1).1 = none := by
    apply runOps_no_error
    intro s hsR
    refine ⟨?_, hnotW s hsR⟩
    rw [hreads] at hsR
    simp only [List.mem_cons, List.mem_map] at hsR
    rcases hsR with h | h | h | h | ⟨x, hx, rfl⟩
    · rw [h, hexe]; rfl
    · rw [h, hexe]; rfl
    · rw [h, hexe]; rfl
    · rw [h, hos]; rfl
    · exact hpre x hx
  have hsrcmB : os_path_join bp.lib m ∈ readsOf (buildOps bp destination) := by
    rw [readsOf_buildOps]
    simp only [List.mem_cons]
    right; right; right; right
    apply List.mem_map_of_mem
    rw [hsplit]
    exact List.mem_append_right _ (List.mem_cons_self _ _)
  have hsrcm_nw : os_path_join bp.lib m ∉ writesOf G1 :=
    fun hc => hdisj _ hsrcmB (hWsub _ hc)
  have hfail := runOps_fails_at_missing_copy G1 G2 (os_path_join bp.lib m)
    (os_path_join (lib_dir bp destination) m)
    (VEnvError.missingDependencyModule m) fs hokG1 hsrcm_nw hm
  have hcreate : create_virtual_environment bp destination fs
      = (some (VEnvError.missingDependencyModule m), (runOps fs G1).2) := by
    unfold create_virtual_environment
    rw [hops]
    exact hfail
  have hsnd : (create_virtual_environment bp destination fs).2 = (runOps fs G1).2 := by
    rw [hcreate]
  refine ⟨by rw [hcreate], ?_, ?_, ?_, ?_, ?_, ?_, ?_, ?_⟩
  · rw [hsnd]
    exact runOps_dirs_of_ensureDir_mem G1 _ fs hmDbin hokG1
  · rw [hsnd]
    exact runOps_dirs_of_ensureDir_mem G1 _ fs hmDlib hokG1
  · rw [hsnd]
    exact runOps_dirs_of_ensureDir_mem G1 _ fs hmDsp hokG1
  · rw [hsnd]
    exact runOps_lookup_of_copy_mem G1 _ _ _ fs fexe hmB0 hokG1 hexe
      (hnotW _ hexeR) hnodupG1
  · rw [hsnd]
    exact runOps_lookup_of_copy_mem G1 _ _ _ fs fexe hmB1 hokG1 hexe
      (hnotW _ hexeR) hnodupG1
  · rw [hsnd]
    exact runOps_lookup_of_copy_mem G1 _ _ _ fs fexe hmB2 hokG1 hexe
      (hnotW _ hexeR) hnodupG1
  · rw [hsnd]
    exact runOps_lookup_of_copy_mem G1 _ _ _ fs fos hmOs hokG1 hos
      (hnotW _ hosR) hnodupG1
  · intro x hx
    obtain ⟨fx, hfx⟩ := Option.isSome_iff_exists.mp (hpre x hx)
    rw [hfx, hsnd]
    exact runOps_lookup_of_copy_mem G1 _ _ _ fs fx (hmMod x hx) hokG1 hfx
      (hnotW _ (hmodR x hx)) hnodupG1

/-- Witness for C7: with a base library missing `stat.py` (but holding the
executable, `os.py` and `posixpath.py`), the construction on `/tmp/env`
fails with `MissingDependencyModule "stat.py"` while the binary directory
and the already-copied `posixpath.py` remain in place. -/
theorem staging_failure_names_missing_module_witness :
    bootstrapModules
      = ["posixpath.py"] ++ "stat.py" :: ["genericpath.py", "warnings.py",
          "linecache.py", "types.py", "UserDict.py", "_abcoll.py", "abc.py",
          "_weakrefset.py", "copy_reg.py"]
    ∧ exampleBaseFSMissingStat.lookupFile
        (os_path_join exampleBase.lib "stat.py") = none
    ∧ (create_virtual_environment exampleBase "/tmp/env" exampleBaseFSMissingStat).1
        = some (VEnvError.missingDependencyModule "stat.py")
    ∧ bin_dir "/tmp/env"
        ∈ (create_virtual_environment exampleBase "/tmp/env"
            exampleBaseFSMissingStat).2.dirs
    ∧ ∀ x ∈ ["posixpath.py"],
        (create_virtual_environment exampleBase "/tmp/env"
            exampleBaseFSMissingStat).2.lookupFile
          (os_path_join (lib_dir exampleBase "/tmp/env") x)
        = exampleBaseFSMissingStat.lookupFile (os_path_join exampleBase.lib x) := by
  have h := staging_failure_names_missing_module exampleBase "/tmp/env"
    exampleBaseFSMissingStat ⟨"ELF", true⟩ ⟨"os module", false⟩
    ["posixpath.py"]
    ["genericpath.py", "warnings.py", "linecache.py", "types.py", "UserDict.py",
     "_abcoll.py", "abc.py", "_weakrefset.py", "copy_reg.py"]
    "stat.py"
    (by decide) (by decide) (by decide) (by decide) (by decide) (by decide)
    (by decide)
  exact ⟨by decide, by decide, h.1, h.2.1, h.2.2.2.2.2.2.2.2⟩

end Virtualenv
